import Mathlib

/-!
# TechMandates — verification of the scan-result aggregation and remediation core

Shallow embedding of the scan-result aggregation / activity-reconciliation
pipeline and the vulnerability fix workflow of the TechMandates dashboard,
together with theorems checking the specification's claims against it.

The embedded code:
* the Vulnerabilities page (`src/components/dashboard/RecentActivity.tsx`,
  second document): `handleScanResults`, `handleFixVulnerability`, and the
  guard on the "Fix Now" button;
* the fix-error classifier `getErrorDetails` (`ErrorDialog`);
* the activity feed hook (`src/hooks/useRecentActivity.ts`, first variant):
  de-duplication, sorting and truncation in `fetchRecentActivity`, and its
  error fallback;
* the improve-coverage edge function's per-repository loop (`serve`);
* the version scan of `ScanUpdatesModal` (`scanAllRepositories`).
-/

namespace TechMandates

/-- A scanned vulnerability row as held in the `scannedVulnerabilities` state
of the Vulnerabilities page.  `status` carries the lifecycle strings
`"open"`, `"in-progress"`, `"resolved"`. -/
structure Vuln where
  id : String
  title : String
  severity : String
  cvss : ℚ
  repository : String
  repositoryId : String
  platform : String
  package : String
  version : String
  fixedIn : String
  status : String
  discoveredDate : String
  description : String
  deriving DecidableEq, Repr

/-- A connected repository (`useRepositories`). -/
structure Repository where
  id : String
  name : String
  full_name : String
  provider : String
  language : Option String
  deriving DecidableEq, Repr

/-- `handleScanResults` of the Vulnerabilities page: the callback passed to
`SecurityScanModal` runs `setScannedVulnerabilities(results)` — the previous
store content is discarded and the incoming batch is installed wholesale. -/
def handleScanResults (_prev results : List Vuln) : List Vuln := results

/-- Outcome of the `apiClient.fixVulnerability` call as observed by
`handleFixVulnerability`: the success branch is taken when
`result.data?.success` is truthy, carrying `pullRequestNumber` and
`pullRequestUrl`; every other outcome surfaces as a thrown `Error` whose
message lands in the catch block. -/
inductive FixResult where
  | success (pullRequestNumber : Nat) (pullRequestUrl : String)
  | failure (message : String)
  deriving DecidableEq, Repr

/-- The user-visible effect `handleFixVulnerability` emits for one attempt:
the success toast (with PR number and URL) or the error dialog (with the
thrown message and the repository's full name, when found). -/
inductive FixEffect where
  | successToast (pullRequestNumber : Nat) (pullRequestUrl : String)
  | errorDialog (error : String) (repositoryName : Option String)
  deriving DecidableEq, Repr

/-- `handleFixVulnerability` (Vulnerabilities page).  On collaborator
success: every stored row whose `id` equals the target's `id` has its status
set to `"in-progress"` (`prev.map(v => v.id === vuln.id ? {...v, status:
'in-progress'} : v)`) and one success toast is shown.  On failure the list is
untouched and one error dialog is opened with `error.message` and
`repositories.find(r => r.id === vuln.repositoryId)?.full_name`. -/
def handleFixVulnerability (vulns : List Vuln) (repositories : List Repository)
    (vuln : Vuln) (result : FixResult) : List Vuln × List FixEffect :=
  match result with
  | FixResult.success n url =>
      (vulns.map fun v => if v.id = vuln.id then { v with status := "in-progress" } else v,
       [FixEffect.successToast n url])
  | FixResult.failure msg =>
      (vulns,
       [FixEffect.errorDialog msg
         ((repositories.find? fun r => r.id == vuln.repositoryId).map Repository.full_name)])

/-- Guard on the "Fix Now" action: the button is rendered only when
`vuln.status === 'open'` and disabled while
`isFixingVulnerability === vuln.id`. -/
def canRequestFix (v : Vuln) (isFixingVulnerability : Option String) : Bool :=
  v.status == "open" && !(isFixingVulnerability == some v.id)

/-- UI dispatch of a fix request: when the guard holds, the request for
`v.id` is issued; otherwise nothing happens at all — no call is made and no
error value exists in the page. -/
def dispatchFix (v : Vuln) (isFixingVulnerability : Option String) : Option String :=
  if canRequestFix v isFixingVulnerability then some v.id else none

/-- JavaScript's `String.prototype.includes`: `needle` occurs contiguously
in `hay`. -/
def strIncludes (needle hay : String) : Bool :=
  decide (List.IsInfix needle.toList hay.toList)

/-- A helpful link offered by the fix-error dialog. -/
structure ErrorLink where
  text : String
  url : Option String
  deriving DecidableEq, Repr

/-- The structured error detail computed by `getErrorDetails` and rendered
by `ErrorDialog`. -/
structure ErrorDetails where
  title : String
  description : String
  solutions : List String
  links : List ErrorLink
  deriving DecidableEq, Repr

/-- `getErrorDetails` (`ErrorDialog`): classifies the failure message of a
fix attempt into a structured detail.  Permission failures (branch creation
forbidden / token lacking access) are mapped to dedicated titles, branch/PR
conflicts to another, and everything else to a generic detail. -/
def getErrorDetails (error : String) (repositoryName : Option String) : ErrorDetails :=
  let isExternalRepo : Bool :=
    match repositoryName with
    | some r => !(r.startsWith "KetsHacathons/")
    | none => false
  if strIncludes "Failed to create branch: Forbidden" error
      || strIncludes "Resource not accessible by personal access token" error then
    if isExternalRepo then
      { title := "Cannot Fix External Repository"
        description := "You don\x27t have write access to \"" ++ repositoryName.getD "" ++
          "\". You can only create vulnerability fixes for repositories you own or have collaborator access to."
        solutions :=
          ["You can only fix vulnerabilities in your own repositories",
           "Fork this repository to your account if you want to create a fix",
           "Contact the repository owner to report the vulnerability",
           "Focus on fixing vulnerabilities in repositories you control"]
        links :=
          [⟨"Fork " ++ (repositoryName.map (fun r => (r.splitOn "/").getD 1 "")).getD "" ++ " Repository",
            repositoryName.map fun r => "https://github.com/" ++ r ++ "/fork"⟩,
           ⟨"Report Security Issue",
            repositoryName.map fun r => "https://github.com/" ++ r ++ "/security/advisories/new"⟩] }
    else
      { title := "GitHub Token Permissions Error"
        description := "Your GitHub token doesn\x27t have sufficient permissions to create branches and pull requests in your own repository."
        solutions :=
          ["Update your GitHub token with write permissions to Contents and Pull Requests",
           "Ensure your token hasn\x27t expired",
           "For fine-grained tokens: grant \x27Contents: Write\x27 and \x27Pull requests: Write\x27 permissions",
           "For classic tokens: ensure \x27repo\x27 scope is selected"]
        links :=
          [⟨"Update GitHub Token in Supabase",
            some "https://supabase.com/dashboard/project/hbxbmrffzlmkuahhsfwx/settings/functions"⟩,
           ⟨"Create New GitHub Token", some "https://github.com/settings/tokens"⟩] }
  else if strIncludes "Failed to create pull request: Unprocessable Entity" error then
    { title := "Pull Request Creation Failed"
      description := "Unable to create the pull request. This usually happens when there are conflicts or duplicate branches."
      solutions :=
        ["A branch with this name may already exist - check your repository",
         "Delete any existing fix branches and try again",
         "Ensure your repository allows pull requests from branches",
         "Verify your GitHub token has pull request write permissions"]
      links :=
        [⟨"View Repository Branches",
          repositoryName.map fun r => "https://github.com/" ++ r ++ "/branches"⟩] }
  else if strIncludes "Resource not accessible by personal access token" error then
    -- Unreachable in practice: the first branch already tests this marker.
    { title := "Repository Access Denied"
      description :=
        if isExternalRepo then
          "You don\x27t have access to modify \"" ++ repositoryName.getD "" ++
            "\". This is an external repository that you cannot directly fix."
        else
          "You don\x27t have access to this repository or the token permissions are insufficient."
      solutions :=
        if isExternalRepo then
          ["You can only create fixes for repositories you own or collaborate on",
           "Fork the repository to your account to work on a fix",
           "Report the vulnerability to the repository maintainers",
           "Focus on vulnerabilities in your own repositories"]
        else
          ["Ensure you own the repository or are a collaborator",
           "Use a fine-grained token with specific repository access",
           "Check that your GitHub token hasn\x27t been revoked"]
      links :=
        if isExternalRepo then
          [⟨"Fork " ++ (repositoryName.map (fun r => (r.splitOn "/").getD 1 "")).getD "",
            repositoryName.map fun r => "https://github.com/" ++ r ++ "/fork"⟩]
        else [] }
  else
    { title := "Vulnerability Fix Failed"
      description := "An unexpected error occurred while trying to create the vulnerability fix."
      solutions :=
        ["Check your internet connection",
         "Verify you have write access to the repository",
         "Ensure your GitHub token is valid and has proper permissions",
         "Try again in a few minutes"]
      links := [] }

/-- Remediation outcome of one fix attempt. -/
inductive FixOutcome where
  | success
  | failure
  deriving DecidableEq, Repr

/-- The remediation record one fix attempt surfaces to the user — the
specification's `RemediationAction` view of a `FixEffect`: the success toast
carries the PR URL, the error dialog carries the structured detail computed
by `getErrorDetails`. -/
structure RemediationAction where
  outcome : FixOutcome
  pullRequestUrl : Option String
  errorDetail : Option ErrorDetails
  deriving DecidableEq, Repr

/-- Maps one emitted effect to the remediation record it surfaces. -/
def recordOf : FixEffect → RemediationAction
  | FixEffect.successToast _ url => ⟨FixOutcome.success, some url, none⟩
  | FixEffect.errorDialog err repoName =>
      ⟨FixOutcome.failure, none, some (getErrorDetails err repoName)⟩

/-- Provenance tag of an activity entry (`source?: 'database' | 'local'` in
`useRecentActivity.ts`; the constructor `localCache` stands for the JS value
`'local'`). -/
inductive ActivitySource where
  | database
  | localCache
  deriving DecidableEq, Repr

/-- One entry of the recent-activity feed (`ActivityItem` in
`useRecentActivity.ts`).  `timestamp` is the display string produced by
`formatTimeAgo` (either `"Just now"` or `"… ago"`). -/
structure ActivityItem where
  id : String
  type : String
  title : String
  description : String
  timestamp : String
  status : String
  repository : Option String
  repository_id : Option String
  source : Option ActivitySource
  deriving DecidableEq, Repr

/-- One step of the de-duplicating `reduce` in `fetchRecentActivity`
(`useRecentActivity.ts`): a new entry is appended when its `id` is unseen;
when an entry with the same `id` was already kept, the new one replaces it in
place only if the new one came from the database and the kept one from
localStorage (`activity.source === 'database' && existing.source ===
'local'`), and is dropped otherwise. -/
def dedupStep (acc : List ActivityItem) (activity : ActivityItem) : List ActivityItem :=
  match acc.find? (fun a => a.id == activity.id) with
  | none => acc ++ [activity]
  | some existing =>
      if activity.source == some ActivitySource.database
          && existing.source == some ActivitySource.localCache then
        acc.set (acc.findIdx (fun a => a.id == activity.id)) activity
      else acc

/-- `uniqueActivities` in `fetchRecentActivity`: the de-duplicating `reduce`
over all combined activities, starting from the empty accumulator. -/
def uniqueActivities (allActivities : List ActivityItem) : List ActivityItem :=
  allActivities.foldl dedupStep []

/-- Time value of an activity entry as computed inside the sort comparator of
`fetchRecentActivity`: `new Date(a.timestamp.includes('ago') ? Date.now() :
a.timestamp).getTime()`.  `now` abstracts `Date.now()` and `parseDate` the
JavaScript date parser applied to the raw timestamp string. -/
def itemTime (now : Int) (parseDate : String → Int) (a : ActivityItem) : Int :=
  if strIncludes "ago" a.timestamp then now else parseDate a.timestamp

/-- Ordering relation induced by the JavaScript comparator
`(a, b) => timeB - timeA`: `a` may be placed before `b` iff
`timeB - timeA ≤ 0`.  `Array.prototype.sort` is a stable sort with respect to
this total preorder, modelled below by the stable `List.insertionSort`. -/
def activityLE (now : Int) (parseDate : String → Int) (a b : ActivityItem) : Prop :=
  itemTime now parseDate b - itemTime now parseDate a ≤ 0

instance (now : Int) (parseDate : String → Int) :
    DecidableRel (activityLE now parseDate) := fun a b =>
  inferInstanceAs (Decidable (itemTime now parseDate b - itemTime now parseDate a ≤ 0))

/-- `sortedActivities` in `fetchRecentActivity`: the de-duplicated entries
sorted by the comparator (newest first, stable on ties) and truncated by
`.slice(0, 20)`. -/
def sortedActivities (now : Int) (parseDate : String → Int)
    (l : List ActivityItem) : List ActivityItem :=
  (List.insertionSort (activityLE now parseDate) l).take 20

/-- The success path of one `fetchRecentActivity` pass: combine the persisted
(localStorage-derived) activities with the database ones, de-duplicate, sort
and truncate. -/
def fetchRecentActivitySuccess (now : Int) (parseDate : String → Int)
    (persistedActivities databaseActivities : List ActivityItem) : List ActivityItem :=
  sortedActivities now parseDate (uniqueActivities (persistedActivities ++ databaseActivities))

/-- The hook's feed state: the `activities` list and the `error` message. -/
structure FeedState where
  activities : List ActivityItem
  error : Option String
  deriving DecidableEq, Repr

/-- The sample entry installed by the error fallback of
`fetchRecentActivity` when no persisted data exists. -/
def sampleActivity : ActivityItem :=
  { id := "sample-1"
    type := "general"
    title := "Welcome to TechMandates"
    description := "Connect repositories and run scans to see recent activity here"
    timestamp := "Just now"
    status := "pending"
    repository := some "Getting Started"
    repository_id := none
    source := some ActivitySource.localCache }

/-- The catch block of `fetchRecentActivity` (`useRecentActivity.ts`): on a
failed fetch it sets the fixed error message and *replaces* the feed — with
the persisted activities truncated to 20 when any exist, otherwise with the
single sample entry.  The previous state `st` is discarded. -/
def fetchRecentActivityFailure (persistedActivities : List ActivityItem)
    (_st : FeedState) : FeedState :=
  { activities :=
      if persistedActivities.length > 0 then persistedActivities.take 20
      else [sampleActivity]
    error := some "Failed to fetch recent activity" }

/-- A repository payload of the improve-coverage edge function
(`ImproveCoverageRequest`). -/
structure CovRepo where
  id : String
  name : String
  full_name : String
  language : String
  currentCoverage : Int
  deriving DecidableEq, Repr

/-- Observable outcome of the chain of GitHub calls the improve-coverage
function performs for one repository: the repository-info fetch is not ok;
some call in the try block throws; the pull-request creation responds ok
(with its URL, number and the branch/test-file data); or the pull-request
creation responds not ok. -/
inductive VcsOutcome where
  | repoFetchFailed
  | thrown (message : String)
  | prCreated (htmlUrl : String) (number : Nat) (branchName : String) (suggestedTests : Nat)
  | prFailed
  deriving DecidableEq, Repr

/-- One per-repository result row pushed by the improve-coverage function
(the random `estimatedCoverage` field of the success row is omitted). -/
structure ItemResult where
  repositoryId : String
  success : Bool
  error : Option String
  branchName : Option String
  pullRequestUrl : Option String
  pullRequestNumber : Option Nat
  suggestedTests : Option Nat
  deriving DecidableEq, Repr

/-- The body of the `for (const repo of repositories)` loop of the
improve-coverage `serve` handler: every path — failed repository fetch,
thrown exception (caught by the per-item try/catch), failed PR creation,
successful PR creation — pushes exactly one result row for the repository. -/
def processRepository (collab : CovRepo → VcsOutcome) (repo : CovRepo) : ItemResult :=
  match collab repo with
  | VcsOutcome.repoFetchFailed =>
      ⟨repo.id, false, some "Failed to access repository", none, none, none, none⟩
  | VcsOutcome.thrown msg =>
      ⟨repo.id, false, some msg, none, none, none, none⟩
  | VcsOutcome.prCreated url n branch tests =>
      ⟨repo.id, true, none, some branch, some url, some n, some tests⟩
  | VcsOutcome.prFailed =>
      ⟨repo.id, false, some "Failed to create pull request", none, none, none, none⟩

/-- The sequential loop of the improve-coverage `serve` handler,
accumulating `results` in order (`results.push(...)` then continue with the
rest). -/
def serveLoop (collab : CovRepo → VcsOutcome) :
    List CovRepo → List ItemResult → List ItemResult
  | [], results => results
  | repo :: rest, results => serveLoop collab rest (results ++ [processRepository collab repo])

/-- The per-item result list the improve-coverage `serve` handler returns
for a request batch. -/
def improveCoverageResults (collab : CovRepo → VcsOutcome)
    (repositories : List CovRepo) : List ItemResult :=
  serveLoop collab repositories []

/-- The `technologyVersions` catalog of `ScanUpdatesModal`, with the JS
`|| []` fallback for unknown keys. -/
def technologyVersions : String → List String
  | "Java" => ["21.0.2", "21.0.1", "21.0.0", "17.0.9", "17.0.8", "17.0.7", "17.0.6",
               "17.0.5", "11.0.21", "11.0.20", "11.0.19", "8u392", "8u382", "8u372"]
  | "Angular" => ["18", "17", "16", "15"]
  | "Python" => ["3.12", "3.11", "3.10", "3.9"]
  | "TypeScript" => ["5.3", "5.2", "5.1", "5.0", "4.9"]
  | "Node.js" => ["20", "18", "16", "14"]
  | "React" => ["18", "17", "16"]
  | "Vue.js" => ["3.4", "3.3", "3.2"]
  | "Next.js" => ["14", "13", "12"]
  | "Nuxt" => ["3.8", "3.7", "3.6"]
  | "Express" => ["4.18", "4.17"]
  | "NestJS" => ["10", "9", "8"]
  | "Django" => ["4.2", "4.1", "3.2"]
  | "Flask" => ["2.3", "2.2", "2.1"]
  | "Spring Boot" => ["3.2", "3.1", "3.0", "2.7"]
  | ".NET" => ["8.0", "7.0", "6.0"]
  | "Go" => ["1.21", "1.20", "1.19"]
  | "Rust" => ["1.75", "1.74", "1.73"]
  | "PHP" => ["8.3", "8.2", "8.1", "8.0"]
  | "Laravel" => ["10", "9", "8"]
  | "Ruby" => ["3.2", "3.1", "3.0"]
  | "Ruby on Rails" => ["7.1", "7.0", "6.1"]
  | _ => []

/-- The technologies `scanAllRepositories` probes per repository. -/
def relevantTechnologies : List String :=
  ["Java", "Angular", "Python", "TypeScript", "Node.js", "React"]

/-- Per-technology scan state of `ScanUpdatesModal` (the entries of
`RepositoryUpdate.technologies`). -/
structure TechState where
  name : String
  currentVersion : Option String
  availableVersions : List String
  latestVersion : String
  needsUpdate : Bool
  deriving DecidableEq, Repr

/-- `initializeScan` state for one technology: no detected version, the
catalog and its first element (`[0] || ""`) as latest, no update flagged. -/
def initTech (tech : String) : TechState :=
  { name := tech
    currentVersion := none
    availableVersions := technologyVersions tech
    latestVersion := (technologyVersions tech).headD ""
    needsUpdate := false }

/-- One `detect-current-version` probe inside `scanAllRepositories`.
`detect tech = some v` stands for the branch
`!error && data?.success && data.currentVersion` being taken with the truthy
detected version `v`; `none` covers an invoke error, an unsuccessful
response, a falsy version, or a thrown exception (all of which leave the
initialized state untouched).  On a detected version the state records it
and computes `needsUpdate = currentVersion !== latestVersion &&
availableVersions.includes(currentVersion)`. -/
def scanTech (detect : String → Option String) (tech : String) : TechState :=
  match detect tech with
  | some currentVersion =>
      let availableVersions := technologyVersions tech
      let latestVersion := availableVersions.headD ""
      { initTech tech with
        currentVersion := some currentVersion
        needsUpdate := (currentVersion != latestVersion)
          && availableVersions.contains currentVersion }
  | none => initTech tech

/-- `getPriorityForTechnology` of `ScanUpdatesModal`. -/
def getPriorityForTechnology (technology : String) : String :=
  if ["Java", "Spring Boot", ".NET"].contains technology then "high"
  else if ["Angular", "React", "Vue.js", "Next.js"].contains technology then "medium"
  else "low"

/-- One row of the `upgradeResults` list handed to `onScanResults`. -/
structure UpgradeResult where
  repository : String
  repositoryId : String
  platform : String
  technology : String
  currentVersion : String
  targetVersion : String
  status : String
  priority : String
  deriving DecidableEq, Repr

/-- The result generation at the end of `scanAllRepositories` for one
repository: every probed technology with `needsUpdate && currentVersion`
contributes one pending upgrade row (current → latest). -/
def upgradeResultsFor (repoName repoId : String)
    (detect : String → Option String) : List UpgradeResult :=
  (((relevantTechnologies.map (scanTech detect)).filter
      (fun t => t.needsUpdate && t.currentVersion.isSome)).map
    (fun t =>
      { repository := repoName
        repositoryId := repoId
        platform := "GitHub"
        technology := t.name
        currentVersion := t.currentVersion.getD ""
        targetVersion := t.latestVersion
        status := "pending"
        priority := getPriorityForTechnology t.name }))

/-! ## Concrete fixtures used by counterexamples and witnesses -/

/-- An open security finding, as in the specification's scenario. -/
def vB : Vuln :=
  { id := "CVE-2024-1001"
    title := "SQL Injection vulnerability in Spring Security"
    severity := "critical"
    cvss := 98 / 10
    repository := "acme/widgets"
    repositoryId := "r1"
    platform := "GitHub"
    package := "spring-security-core"
    version := "5.7.2"
    fixedIn := "6.1.0"
    status := "open"
    discoveredDate := "2024-06-01"
    description := "Authentication bypass through SQL injection in login endpoint" }

/-- A locally cached activity entry. -/
def eLoc : ActivityItem :=
  { id := "x"
    type := "security"
    title := "Security issue found"
    description := "local copy"
    timestamp := "5 minutes ago"
    status := "warning"
    repository := some "acme/widgets"
    repository_id := some "r1"
    source := some ActivitySource.localCache }

/-- A database-sourced activity entry with the same id as `eLoc`. -/
def eDb : ActivityItem :=
  { eLoc with description := "database copy", source := some ActivitySource.database }

/-- An activity entry with id `"b"`. -/
def eb : ActivityItem := { eLoc with id := "b" }

/-- An activity entry with id `"a"`. -/
def ea : ActivityItem := { eLoc with id := "a" }

/-! ## Helper lemmas -/

/-- Setting an index of a list to the value it already holds is a no-op. -/
theorem set_get?_self {α : Type} (l : List α) (n : Nat) (x : α)
    (h : l.get? n = some x) : l.set n x = l := by
  induction l generalizing n with
  | nil => simp at h
  | cons b bs ih =>
      cases n with
      | zero => simp_all
      | succ m =>
          simp only [List.get?_cons_succ] at h
          simp [List.set, ih m h]

/-- The element `find?` returns sits at the index `findIdx` returns. -/
theorem get?_findIdx_of_find? {α : Type} (p : α → Bool) (l : List α) (x : α)
    (h : l.find? p = some x) : l.get? (l.findIdx p) = some x := by
  induction l with
  | nil => simp [List.find?] at h
  | cons b bs ih =>
      by_cases hb : p b
      · rw [List.find?_cons_of_pos _ hb] at h
        cases h
        simp [List.findIdx_cons, hb]
      · rw [List.find?_cons_of_neg _ hb] at h
        have := ih h
        rw [List.get?_eq_getElem?] at this ⊢
        simpa [List.findIdx_cons, hb] using this

/-- One dedup step either leaves the kept ids unchanged (duplicate dropped or
replaced in place) or appends the one new id. -/
theorem dedupStep_ids (acc : List ActivityItem) (a : ActivityItem) :
    (dedupStep acc a).map ActivityItem.id = acc.map ActivityItem.id ∨
    ((dedupStep acc a).map ActivityItem.id = acc.map ActivityItem.id ++ [a.id] ∧
      a.id ∉ acc.map ActivityItem.id) := by
  unfold dedupStep
  cases hf : acc.find? (fun b => b.id == a.id) with
  | none =>
      right
      refine ⟨by simp, ?_⟩
      intro hmem
      obtain ⟨b, hb, hid⟩ := List.mem_map.mp hmem
      have hnone := List.find?_eq_none.mp hf b hb
      simp [hid] at hnone
  | some existing =>
      left
      cases hcond : (a.source == some ActivitySource.database
          && existing.source == some ActivitySource.localCache) with
      | true =>
          simp only [hcond, if_true]
          have hx := get?_findIdx_of_find? _ _ _ hf
          have hpx : (existing.id == a.id) = true := by
            simpa using List.find?_some hf
          rw [List.map_set]
          apply set_get?_self
          rw [List.get?_eq_getElem?, List.getElem?_map,
            ← List.get?_eq_getElem?, hx]
          exact congrArg some (beq_iff_eq.mp hpx)
      | false => simp [hcond]

/-- Every element the dedup fold keeps comes from its inputs. -/
theorem foldl_dedupStep_mem (S : List ActivityItem) :
    ∀ (l acc : List ActivityItem), (∀ x ∈ acc, x ∈ S) → (∀ x ∈ l, x ∈ S) →
      ∀ x ∈ l.foldl dedupStep acc, x ∈ S := by
  intro l
  induction l with
  | nil => intro acc hacc _ x hx; exact hacc x hx
  | cons a rest ih =>
      intro acc hacc hl x hx
      simp only [List.foldl_cons] at hx
      refine ih (dedupStep acc a) ?_ (fun y hy => hl y (List.mem_cons_of_mem _ hy)) x hx
      intro y hy
      unfold dedupStep at hy
      cases hf : acc.find? (fun b => b.id == a.id) with
      | none =>
          rw [hf] at hy
          rcases List.mem_append.mp hy with h | h
          · exact hacc y h
          · simp at h
            exact h ▸ hl a (List.mem_cons_self a rest)
      | some existing =>
          rw [hf] at hy
          cases hcond : (a.source == some ActivitySource.database
              && existing.source == some ActivitySource.localCache) with
          | true =>
              simp only [hcond, if_true] at hy
              rcases List.mem_or_eq_of_mem_set hy with h | h
              · exact hacc y h
              · exact h ▸ hl a (List.mem_cons_self a rest)
          | false =>
              simp only [hcond] at hy
              simp at hy
              exact hacc y hy

/-- The dedup fold preserves distinctness of the kept ids. -/
theorem foldl_dedupStep_nodup :
    ∀ (l acc : List ActivityItem), (acc.map ActivityItem.id).Nodup →
      ((l.foldl dedupStep acc).map ActivityItem.id).Nodup := by
  intro l
  induction l with
  | nil => intro acc h; simpa using h
  | cons a rest ih =>
      intro acc hacc
      simp only [List.foldl_cons]
      apply ih
      rcases dedupStep_ids acc a with h | ⟨h, hnot⟩
      · rw [h]; exact hacc
      · rw [h]
        refine List.nodup_append.mpr ⟨hacc, List.nodup_singleton _, ?_⟩
        intro s hs hs'
        simp at hs'
        exact hnot (hs' ▸ hs)

/-- Insertion sort is the identity on a list whose elements are all related
pairwise (in particular when the comparator ties everywhere). -/
theorem insertionSort_of_total_refl {α : Type} (r : α → α → Prop) [DecidableRel r] :
    ∀ l : List α, (∀ a ∈ l, ∀ b ∈ l, r a b) → List.insertionSort r l = l := by
  intro l
  induction l with
  | nil => intro _; rfl
  | cons a rest ih =>
      intro h
      rw [List.insertionSort,
        ih (fun x hx y hy => h x (List.mem_cons_of_mem _ hx) y (List.mem_cons_of_mem _ hy))]
      cases rest with
      | nil => rfl
      | cons b bs =>
          rw [List.orderedInsert, if_pos (h a (List.mem_cons_self a (b :: bs)) b
            (List.mem_cons_of_mem _ (List.mem_cons_self b bs)))]

/-- The sequential improve-coverage loop accumulates exactly the per-item
results, in order. -/
theorem serveLoop_eq_append_map (collab : CovRepo → VcsOutcome) :
    ∀ (repos : List CovRepo) (acc : List ItemResult),
      serveLoop collab repos acc = acc ++ repos.map (processRepository collab) := by
  intro repos
  induction repos with
  | nil => intro acc; simp [serveLoop]
  | cons repo rest ih =>
      intro acc
      rw [serveLoop, ih, List.map_cons]
      simp

/-- `scanTech` reports on the technology it was asked about. -/
theorem scanTech_name (detect : String → Option String) (tech : String) :
    (scanTech detect tech).name = tech := by
  unfold scanTech
  cases detect tech <;> rfl

/-! ## Claims -/

/-- **C1, counterexample.**  The claim predicts that a complete re-scan batch
omitting the open finding `vB` transitions it to `resolved` (and emits a
resolved activity entry).  In the code, `handleScanResults` installs the
batch wholesale: the omitted finding is removed from the store outright and
no entry with its id — let alone a resolved one — survives. -/
theorem claim1_rescan_resolution_counterexample :
    handleScanResults [vB] [] = [] ∧
    ¬ ∃ w ∈ handleScanResults [vB] [], w.id = vB.id ∧ w.status = "resolved" := by
  refine ⟨rfl, ?_⟩
  rintro ⟨w, hw, -⟩
  simp [handleScanResults] at hw

/-- **C1, amended.**  `handleScanResults` replaces the stored vulnerability
list wholesale with the scan batch: afterwards the store equals the batch,
so an open finding omitted from the batch is removed entirely — it is not
marked resolved and no activity entry is emitted for it; there is no
completeness flag, every batch is treated as authoritative. -/
theorem claim1_wholesale_replacement (prev results : List Vuln) :
    handleScanResults prev results = results ∧
    (∀ v ∈ prev, (∀ b ∈ results, b.id ≠ v.id) →
      ∀ w ∈ handleScanResults prev results, w.id ≠ v.id) := by
  refine ⟨rfl, ?_⟩
  intro v _ habsent w hw
  exact habsent w hw

/-- **C1, witness.** -/
theorem claim1_wholesale_replacement_witness :
    handleScanResults [vB] [] = [] ∧
    (∀ w ∈ handleScanResults [vB] [], w.id ≠ vB.id) :=
  ⟨(claim1_wholesale_replacement [vB] []).1,
   (claim1_wholesale_replacement [vB] []).2 vB (by simp) (by simp)⟩

/-- **C2, counterexample.**  A reconciliation pass whose fetch fails does
*not* leave the feed unchanged: with no persisted fallback data, the feed
`[eLoc]` is replaced by the single sample entry, and the error is the fixed
message `"Failed to fetch recent activity"` rather than a `ScanFailed`
carrying the underlying cause. -/
theorem claim2_failure_mutation_counterexample :
    (fetchRecentActivityFailure [] ⟨[eLoc], none⟩).activities ≠ [eLoc] ∧
    (fetchRecentActivityFailure [] ⟨[eLoc], none⟩).activities = [sampleActivity] ∧
    (fetchRecentActivityFailure [] ⟨[eLoc], none⟩).error =
      some "Failed to fetch recent activity" := by
  refine ⟨?_, rfl, rfl⟩
  decide

/-- **C2, amended.**  On a failed fetch the pass discards the previous feed
state entirely (the result does not depend on it), sets the fixed error
message without the underlying cause, and installs the persisted fallback
truncated to 20 — or the single sample entry when no persisted data
exists. -/
theorem claim2_failure_fallback (persisted : List ActivityItem) (st st' : FeedState) :
    (fetchRecentActivityFailure persisted st).error =
      some "Failed to fetch recent activity" ∧
    (fetchRecentActivityFailure persisted st).activities =
      (if persisted.length > 0 then persisted.take 20 else [sampleActivity]) ∧
    fetchRecentActivityFailure persisted st = fetchRecentActivityFailure persisted st' :=
  ⟨rfl, rfl, rfl⟩

/-- **C7, counterexample.**  A second `requestFix` on the same open finding
while one is pending is not rejected with an `InvalidState` error: the
dispatch yields nothing at all (the button is disabled), whereas the first
request goes through.  No error value exists on this path. -/
theorem claim7_no_invalid_state_counterexample :
    dispatchFix vB none = some vB.id ∧ dispatchFix vB (some vB.id) = none := by
  decide

/-- **C7, amended.**  The fix action is dispatched exactly when the finding
is currently open and no fix request for it is in flight; otherwise the
dispatch is silently suppressed (button hidden for non-open findings,
disabled while pending), so two near-simultaneous requests yield exactly one
invocation — but the second is prevented, not rejected with an
`InvalidState` error. -/
theorem claim7_fix_guard (v : Vuln) (fixing : Option String) :
    (dispatchFix v fixing = some v.id ↔ v.status = "open" ∧ fixing ≠ some v.id) ∧
    dispatchFix v (some v.id) = none := by
  constructor
  · unfold dispatchFix canRequestFix
    by_cases h1 : v.status = "open" <;> by_cases h2 : fixing = some v.id <;>
      simp [h1, h2]
  · unfold dispatchFix canRequestFix
    simp

/-- **C8.**  The improve-coverage batch endpoint processes the request's
repositories sequentially in list order, each item independently: the result
list is exactly the item-wise image of the input, so a failing item (failed
repository fetch, thrown exception, failed PR creation) contributes its own
failure row without aborting the remaining items, and the caller receives
one result per input item, positionally aligned. -/
theorem claim8_batch_isolation (collab : CovRepo → VcsOutcome)
    (repositories : List CovRepo) :
    improveCoverageResults collab repositories =
      repositories.map (processRepository collab) ∧
    (improveCoverageResults collab repositories).length = repositories.length ∧
    (∀ i : Nat, (improveCoverageResults collab repositories).get? i =
      (repositories.get? i).map (processRepository collab)) := by
  have h := serveLoop_eq_append_map collab repositories []
  rw [improveCoverageResults, h]
  refine ⟨by simp, by simp, ?_⟩
  intro i
  simp [List.get?_eq_getElem?, List.getElem?_map]

/-- **C5, counterexample.**  Two entries with the same natural key in one
pass: the first (from localStorage) does *not* win — the later
database-sourced entry replaces it in place. -/
theorem claim5_first_wins_counterexample :
    uniqueActivities [eLoc, eDb] = [eDb] ∧ eDb ≠ eLoc := by
  refine ⟨by decide, by decide⟩

/-- **C5, amended.**  Within one reconciliation pass the de-duplicating
reduce keeps at most one entry per id, and every kept entry is one of the
inputs; for two entries sharing an id, the first occurrence in processing
order wins whenever the two entries carry the same provenance, but a later
database-sourced entry replaces a previously kept localStorage-sourced entry
in place (so upserting the same payload twice still yields exactly one
entry). -/
theorem claim5_dedup_amended :
    (∀ l : List ActivityItem, ((uniqueActivities l).map ActivityItem.id).Nodup) ∧
    (∀ l : List ActivityItem, ∀ x ∈ uniqueActivities l, x ∈ l) ∧
    (∀ e1 e2 : ActivityItem, e1.id = e2.id → e1.source = e2.source →
      uniqueActivities [e1, e2] = [e1]) ∧
    (∀ e1 e2 : ActivityItem, e1.id = e2.id →
      e1.source = some ActivitySource.localCache →
      e2.source = some ActivitySource.database →
      uniqueActivities [e1, e2] = [e2]) := by
  refine ⟨fun l => foldl_dedupStep_nodup l [] (by simp), ?_, ?_, ?_⟩
  · intro l x hx
    exact foldl_dedupStep_mem l l [] (by simp) (fun y hy => hy) x hx
  · intro e1 e2 hid hsrc
    have hfind : List.find? (fun a => a.id == e2.id) [e1] = some e1 := by
      simp [List.find?, hid]
    rcases hs2 : e2.source with _ | s
    · have hs1 : e1.source = none := hsrc.trans hs2
      simp [uniqueActivities, dedupStep, hfind, hs2]
    · have hs1 : e1.source = some s := hsrc.trans hs2
      cases s <;> simp [uniqueActivities, dedupStep, hfind, hs1, hs2]
  · intro e1 e2 hid h1 h2
    have hfind : List.find? (fun a => a.id == e2.id) [e1] = some e1 := by
      simp [List.find?, hid]
    simp [uniqueActivities, dedupStep, hfind, h1, h2, List.findIdx_cons, hid]

/-- **C5, witness.** -/
theorem claim5_dedup_amended_witness :
    ((uniqueActivities [eLoc, eDb]).map ActivityItem.id).Nodup ∧
    uniqueActivities [eLoc, eLoc] = [eLoc] ∧
    uniqueActivities [eLoc, eDb] = [eDb] :=
  ⟨claim5_dedup_amended.1 [eLoc, eDb],
   claim5_dedup_amended.2.2.1 eLoc eLoc rfl rfl,
   claim5_dedup_amended.2.2.2 eLoc eDb rfl rfl rfl⟩

/-- **C6, counterexample.**  Two entries tying on the parsed timestamp (both
display strings contain `"ago"`, so both collapse to `Date.now()`) are *not*
reordered by natural-key lexicographic order: id `"b"` stays before id
`"a"`, because the stable sort keeps ties in processing order. -/
theorem claim6_tiebreak_counterexample :
    sortedActivities 1000 (fun _ => 0) [eb, ea] = [eb, ea] ∧
    eb.id = "b" ∧ ea.id = "a" ∧
    sortedActivities 1000 (fun _ => 0) [eb, ea] ≠ [ea, eb] := by
  refine ⟨by decide, rfl, rfl, by decide⟩

/-- **C6, amended.**  The emitted feed is sorted by the parsed display
timestamp, newest first, and truncated to the feed length 20; ties —
in particular all entries whose display timestamp contains `"ago"`, which
all collapse to the current time — are kept in processing order by the
stable sort rather than reordered by natural key. -/
theorem claim6_sort_truncate :
    (∀ (now : Int) (parseDate : String → Int) (l : List ActivityItem),
      (sortedActivities now parseDate l).length ≤ 20) ∧
    (∀ (now : Int) (parseDate : String → Int) (l : List ActivityItem),
      (sortedActivities now parseDate l).Sorted (activityLE now parseDate)) ∧
    (∀ (now : Int) (parseDate : String → Int) (l : List ActivityItem),
      (∀ x ∈ l, strIncludes "ago" x.timestamp = true) →
      sortedActivities now parseDate l = l.take 20) := by
  refine ⟨?_, ?_, ?_⟩
  · intro now parseDate l
    simp [sortedActivities]
  · intro now parseDate l
    haveI : IsTotal ActivityItem (activityLE now parseDate) :=
      ⟨fun a b => by unfold activityLE; omega⟩
    haveI : IsTrans ActivityItem (activityLE now parseDate) :=
      ⟨fun a b c hab hbc => by unfold activityLE at hab hbc ⊢; omega⟩
    exact (List.sorted_insertionSort _ l).sublist (List.take_sublist _ _)
  · intro now parseDate l h
    unfold sortedActivities
    rw [insertionSort_of_total_refl]
    intro a ha b hb
    unfold activityLE itemTime
    rw [if_pos (h a ha), if_pos (h b hb)]
    omega

/-- **C6, witness.** -/
theorem claim6_sort_truncate_witness :
    sortedActivities 1000 (fun _ => 0) [eb, ea] = [eb, ea].take 20 :=
  claim6_sort_truncate.2.2 1000 (fun _ => 0) [eb, ea] (by decide)

/-- **C3.**  For an open finding, a fix request whose VCS collaborator call
succeeds with a pull request sets the finding's status to `"in-progress"`
(every stored row with its id), leaves every other finding unchanged (same
row, same position count), and surfaces exactly one remediation record with
outcome `success` and the pull-request URL set. -/
theorem claim3_fix_success (vulns : List Vuln) (repos : List Repository)
    (v : Vuln) (n : Nat) (url : String) (_hopen : v.status = "open") :
    (∀ w ∈ (handleFixVulnerability vulns repos v (FixResult.success n url)).1,
      w.id = v.id → w.status = "in-progress") ∧
    (∀ w ∈ vulns, w.id ≠ v.id →
      w ∈ (handleFixVulnerability vulns repos v (FixResult.success n url)).1) ∧
    (handleFixVulnerability vulns repos v (FixResult.success n url)).1.length
      = vulns.length ∧
    (handleFixVulnerability vulns repos v (FixResult.success n url)).2.map recordOf
      = [⟨FixOutcome.success, some url, none⟩] := by
  refine ⟨?_, ?_, ?_, rfl⟩
  · intro w hw hwid
    simp only [handleFixVulnerability, List.mem_map] at hw
    obtain ⟨w0, hw0, hmap⟩ := hw
    by_cases h0 : w0.id = v.id
    · rw [if_pos h0] at hmap
      exact hmap ▸ rfl
    · rw [if_neg h0] at hmap
      exact absurd (hmap ▸ hwid) h0
  · intro w hw hne
    simp only [handleFixVulnerability]
    exact List.mem_map.mpr ⟨w, hw, by rw [if_neg hne]⟩
  · simp [handleFixVulnerability]

/-- **C3, witness.** -/
theorem claim3_fix_success_witness :
    vB.status = "open" ∧
    ((∀ w ∈ (handleFixVulnerability [vB] [] vB (FixResult.success 42 "https://github.com/acme/widgets/pull/42")).1,
        w.id = vB.id → w.status = "in-progress") ∧
      (∀ w ∈ [vB], w.id ≠ vB.id →
        w ∈ (handleFixVulnerability [vB] [] vB (FixResult.success 42 "https://github.com/acme/widgets/pull/42")).1) ∧
      (handleFixVulnerability [vB] [] vB (FixResult.success 42 "https://github.com/acme/widgets/pull/42")).1.length
        = ([vB] : List Vuln).length ∧
      (handleFixVulnerability [vB] [] vB (FixResult.success 42 "https://github.com/acme/widgets/pull/42")).2.map recordOf
        = [⟨FixOutcome.success, some "https://github.com/acme/widgets/pull/42", none⟩]) :=
  ⟨rfl, claim3_fix_success [vB] [] vB 42 "https://github.com/acme/widgets/pull/42" rfl⟩

/-- The permission classification of `getErrorDetails`: a failure message
carrying either permission marker is titled as a permission problem
(external-repository or token-permission variant), never as the generic
failure. -/
theorem getErrorDetails_permission (msg : String) (repoName : Option String)
    (h : strIncludes "Failed to create branch: Forbidden" msg = true ∨
      strIncludes "Resource not accessible by personal access token" msg = true) :
    ((getErrorDetails msg repoName).title = "Cannot Fix External Repository" ∨
      (getErrorDetails msg repoName).title = "GitHub Token Permissions Error") ∧
    (getErrorDetails msg repoName).title ≠ "Vulnerability Fix Failed" := by
  have hcond : (strIncludes "Failed to create branch: Forbidden" msg
      || strIncludes "Resource not accessible by personal access token" msg) = true := by
    rcases h with h | h <;> simp [h]
  rcases repoName with _ | r
  · unfold getErrorDetails
    rw [if_pos hcond]
    refine ⟨Or.inr rfl, by decide⟩
  · by_cases hs : r.startsWith "KetsHacathons/"
    · have hiso : (getErrorDetails msg (some r)).title
          = "GitHub Token Permissions Error" := by
        unfold getErrorDetails
        rw [if_pos hcond]
        simp [hs]
      rw [hiso]
      exact ⟨Or.inr rfl, by decide⟩
    · rw [Bool.not_eq_true] at hs
      have hiso : (getErrorDetails msg (some r)).title
          = "Cannot Fix External Repository" := by
        unfold getErrorDetails
        rw [if_pos hcond]
        simp [hs]
      rw [hiso]
      exact ⟨Or.inl rfl, by decide⟩

/-- **C4.**  For an open finding, a fix request whose VCS collaborator call
fails leaves the whole store unchanged — the finding stays `"open"`, a
failure never reaches `"in-progress"` — and surfaces exactly one remediation
record with outcome `failure` and the structured error detail computed by
`getErrorDetails`; a permission failure (either permission marker in the
message) is classified under a dedicated permission title, distinguished
from the generic `"Vulnerability Fix Failed"` detail. -/
theorem claim4_fix_failure (vulns : List Vuln) (repos : List Repository)
    (v : Vuln) (msg : String) (_hopen : v.status = "open") :
    (handleFixVulnerability vulns repos v (FixResult.failure msg)).1 = vulns ∧
    (handleFixVulnerability vulns repos v (FixResult.failure msg)).2.map recordOf
      = [⟨FixOutcome.failure, none,
          some (getErrorDetails msg
            ((repos.find? fun rp => rp.id == v.repositoryId).map Repository.full_name))⟩] ∧
    (strIncludes "Failed to create branch: Forbidden" msg = true →
      ((getErrorDetails msg
          ((repos.find? fun rp => rp.id == v.repositoryId).map Repository.full_name)).title
        ≠ "Vulnerability Fix Failed")) := by
  refine ⟨rfl, rfl, ?_⟩
  intro hmsg
  exact (getErrorDetails_permission msg _ (Or.inl hmsg)).2

/-- **C4, witness.** -/
theorem claim4_fix_failure_witness :
    vB.status = "open" ∧
    ((handleFixVulnerability [vB] [] vB
        (FixResult.failure "Failed to create branch: Forbidden")).1 = [vB] ∧
      (handleFixVulnerability [vB] [] vB
        (FixResult.failure "Failed to create branch: Forbidden")).2.map recordOf
        = [⟨FixOutcome.failure, none,
            some (getErrorDetails "Failed to create branch: Forbidden"
              ((([] : List Repository).find? fun rp => rp.id == vB.repositoryId).map Repository.full_name))⟩] ∧
      (strIncludes "Failed to create branch: Forbidden" "Failed to create branch: Forbidden" = true →
        ((getErrorDetails "Failed to create branch: Forbidden"
            ((([] : List Repository).find? fun rp => rp.id == vB.repositoryId).map Repository.full_name)).title
          ≠ "Vulnerability Fix Failed"))) :=
  ⟨rfl, claim4_fix_failure [vB] [] vB "Failed to create branch: Forbidden" rfl⟩

/-- **C9.**  Status mutations of the embedded workflow only move findings
forward: a fix can only be dispatched for a finding currently `"open"`;
the fix handler either leaves a row unchanged or sends an `"open"` row (the
dispatched finding, under natural-key consistency of the store) to
`"in-progress"`; and a `"resolved"` finding can become `"open"` again only
because a scan batch re-reports its id as `"open"` — a rediscovery by a
fresh re-scan, never a by-product of some other operation. -/
theorem claim9_forward_transitions :
    (∀ (v : Vuln) (fixing : Option String),
      canRequestFix v fixing = true → v.status = "open") ∧
    (∀ (vulns : List Vuln) (repos : List Repository) (v : Vuln) (res : FixResult),
      (∀ w ∈ vulns, w.id = v.id → w.status = "open") →
      ∀ w' ∈ (handleFixVulnerability vulns repos v res).1,
        w' ∈ vulns ∨
        (∃ w ∈ vulns, w.status = "open" ∧ w' = { w with status := "in-progress" })) ∧
    (∀ (prev batch : List Vuln) (v w : Vuln), v ∈ prev → v.status = "resolved" →
      w ∈ handleScanResults prev batch → w.id = v.id → w.status = "open" →
      ∃ b ∈ batch, b.id = v.id ∧ b.status = "open") := by
  refine ⟨?_, ?_, ?_⟩
  · intro v fixing h
    unfold canRequestFix at h
    have := (Bool.and_eq_true _ _).mp h |>.1
    exact beq_iff_eq.mp this
  · intro vulns repos v res hopen w' hw'
    cases res with
    | failure msg => exact Or.inl hw'
    | success n url =>
        simp only [handleFixVulnerability, List.mem_map] at hw'
        obtain ⟨w, hw, hmap⟩ := hw'
        by_cases h0 : w.id = v.id
        · rw [if_pos h0] at hmap
          exact Or.inr ⟨w, hw, hopen w hw h0, hmap.symm⟩
        · rw [if_neg h0] at hmap
          exact Or.inl (hmap ▸ hw)
  · intro prev batch v w _ _ hw hid hst
    exact ⟨w, hw, hid, hst⟩

/-- **C9, witness.** -/
theorem claim9_forward_transitions_witness :
    vB.status = "open" ∧
    (∀ w' ∈ (handleFixVulnerability [vB] [] vB (FixResult.success 1 "u")).1,
      w' ∈ [vB] ∨
      (∃ w ∈ [vB], w.status = "open" ∧ w' = { w with status := "in-progress" })) :=
  ⟨claim9_forward_transitions.1 vB none (by decide),
   claim9_forward_transitions.2.1 [vB] [] vB (FixResult.success 1 "u")
     (by intro w hw _; simp at hw; rw [hw]; rfl)⟩


/-- **C10.**  In the version scan, a probed technology is flagged as needing
an update exactly when a (truthy) current version was detected, that version
is a member of the technology's catalog, and it differs from the catalog's
first (latest) entry; and an upgrade row for the technology is emitted
exactly when additionally the technology is among the probed ones — so a
detected version absent from the catalog never enters the upgrade
results. -/
theorem claim10_needs_update_iff (repoName repoId : String)
    (detect : String → Option String) (tech v : String)
    (hdet : detect tech = some v) :
    ((scanTech detect tech).needsUpdate = true ↔
      (v ∈ technologyVersions tech ∧ v ≠ (technologyVersions tech).headD "")) ∧
    ((∃ r ∈ upgradeResultsFor repoName repoId detect, r.technology = tech) ↔
      (tech ∈ relevantTechnologies ∧ v ∈ technologyVersions tech ∧
        v ≠ (technologyVersions tech).headD "")) := by
  have hcur : (scanTech detect tech).currentVersion = some v := by
    unfold scanTech
    rw [hdet]
  have hneeds : (scanTech detect tech).needsUpdate = true ↔
      (v ∈ technologyVersions tech ∧ v ≠ (technologyVersions tech).headD "") := by
    unfold scanTech
    rw [hdet]
    show ((v != (technologyVersions tech).headD "")
      && (technologyVersions tech).contains v) = true ↔ _
    rw [Bool.and_eq_true, bne_iff_ne]
    constructor
    · rintro ⟨hne, hc⟩
      exact ⟨List.mem_of_elem_eq_true hc, hne⟩
    · rintro ⟨hm, hne⟩
      exact ⟨hne, List.elem_eq_true_of_mem hm⟩
  refine ⟨hneeds, ?_, ?_⟩
  · rintro ⟨r, hr, htech⟩
    unfold upgradeResultsFor at hr
    simp only [List.mem_map, List.mem_filter] at hr
    obtain ⟨t, ⟨ht, hflag⟩, hrt⟩ := hr
    obtain ⟨tech', htech', hteq⟩ := ht
    have hname : t.name = tech' := by rw [← hteq, scanTech_name]
    have htt : tech' = tech := by
      rw [← htech, ← hrt, hname]
    subst htt
    rw [← hteq] at hflag
    have hupd := ((Bool.and_eq_true _ _).mp hflag).1
    exact ⟨htech', hneeds.mp hupd⟩
  · rintro ⟨hmem, hv, hne⟩
    have hflag : ((scanTech detect tech).needsUpdate
        && (scanTech detect tech).currentVersion.isSome) = true := by
      rw [Bool.and_eq_true]
      exact ⟨hneeds.mpr ⟨hv, hne⟩, by rw [hcur]; rfl⟩
    refine ⟨{ repository := repoName
              repositoryId := repoId
              platform := "GitHub"
              technology := (scanTech detect tech).name
              currentVersion := (scanTech detect tech).currentVersion.getD ""
              targetVersion := (scanTech detect tech).latestVersion
              status := "pending"
              priority := getPriorityForTechnology (scanTech detect tech).name }, ?_, ?_⟩
    · unfold upgradeResultsFor
      exact List.mem_map.mpr ⟨scanTech detect tech,
        List.mem_filter.mpr ⟨List.mem_map.mpr ⟨tech, hmem, rfl⟩, hflag⟩, rfl⟩
    · exact scanTech_name detect tech

/-- **C10, witness.** -/
theorem claim10_needs_update_iff_witness :
    (((scanTech (fun _ => some "17.0.9") "Java").needsUpdate = true ↔
      ("17.0.9" ∈ technologyVersions "Java" ∧
        "17.0.9" ≠ (technologyVersions "Java").headD "")) ∧
    ((∃ r ∈ upgradeResultsFor "acme/widgets" "r1" (fun _ => some "17.0.9"),
        r.technology = "Java") ↔
      ("Java" ∈ relevantTechnologies ∧ "17.0.9" ∈ technologyVersions "Java" ∧
        "17.0.9" ≠ (technologyVersions "Java").headD ""))) :=
  claim10_needs_update_iff "acme/widgets" "r1" (fun _ => some "17.0.9") "Java" "17.0.9" rfl

end TechMandates
